import Mathlib

/-!
Verification of the XLA compilation cache (`xla_compilation_cache.h`).
The repository provides the class declaration; the method bodies are not part
of the provided sources, so the operations are modelled from the design
specification (signature building, entry state machine, compile coordinator,
persistence validation), while the data defaults (`Entry` field initializers,
`CompileState`) come directly from the header.
-/

namespace XlaCache

/-- `DataType` from the TensorFlow framework: an enumerated element type,
modelled as a natural number code. -/
abbrev DataType := Nat

/-- A host-memory constant tensor as used inside `Signature::args`: its
element type, its shape (dimension sizes, `int64_t`), and its value bytes.
The cache compares constant tensors by value. -/
structure Tensor where
  dtype : DataType
  dims : List Int
  bytes : List Nat
deriving DecidableEq

/-- `Signature::TensorTypeAndShape = std::pair<DataType, InlinedVector<int64_t>>`. -/
abbrev TensorTypeAndShape := DataType × List Int

/-- One element of `Signature::args`:
`absl::variant<Tensor, TensorTypeAndShape>`. -/
inductive SigArg where
  | tensorArg (t : Tensor)
  | typeShape (ts : TensorTypeAndShape)
deriving DecidableEq

/-- `XlaCompilationCache::Signature`: the cache key, a unit name plus the
ordered argument descriptors. -/
structure Signature where
  name : String
  args : List SigArg
deriving DecidableEq

/-- Modelled from the spec: comparison of a constant tensor argument "by
value": element type, dimensions and value bytes must all agree. -/
def tensorEq (a b : Tensor) : Bool :=
  a.dtype == b.dtype && a.dims == b.dims && a.bytes == b.bytes

/-- Modelled from the spec: element-wise comparison of one argument slot;
literal values compared by value, shape descriptors by type and dimensions;
the two variant alternatives never compare equal. -/
def sigArgEq : SigArg → SigArg → Bool
  | .tensorArg a, .tensorArg b => tensorEq a b
  | .typeShape a, .typeShape b => a.1 == b.1 && a.2 == b.2
  | _, _ => false

/-- Modelled from the spec: `Signature::operator==` (body not in the provided
sources): structural equality of `name` and element-wise equality of `args`. -/
def Signature.sigEquals (s1 s2 : Signature) : Bool :=
  s1.name == s2.name && s1.args.length == s2.args.length &&
    (List.zip s1.args s2.args).all fun p => sigArgEq p.1 p.2

/-- A 64-bit combining step for the signature hash (multiply–add mix,
truncated to 64 bits as the C++ `uint64` arithmetic would be). -/
def hashCombine (h k : Nat) : Nat :=
  (h * 6364136223846793005 + k + 1442695040888963407) % (2 ^ 64)

/-- Hash of a string by folding the combining step over its characters. -/
def stringHash (s : String) : Nat :=
  s.data.foldl (fun h c => hashCombine h c.toNat) 14695981039346656037

/-- Encoding of a signed dimension size into a hashable natural. -/
def intCode (d : Int) : Nat :=
  2 * d.natAbs + (if d < 0 then 1 else 0)

/-- Hash of one argument slot: the variant tag combined with the slot's
content (type, dimensions, and, for constants, the value bytes). -/
def sigArgHash : SigArg → Nat
  | .tensorArg t =>
      (t.bytes).foldl hashCombine
        ((t.dims.map intCode).foldl hashCombine (hashCombine 1 t.dtype))
  | .typeShape ts =>
      (ts.2.map intCode).foldl hashCombine (hashCombine 2 ts.1)

/-- Modelled from the spec: `Signature::Hash::operator()` (body not in the
provided sources): a combining hash over `name` and every argument. -/
def Signature.sigHash (s : Signature) : Nat :=
  (s.args.map sigArgHash).foldl hashCombine (stringHash s.name)

/-- One entry of the `XlaCompiler::Argument` list handed to `BuildSignature`:
either a compile-time constant (carrying its value), a runtime parameter
(carrying type and shape), or an argument of a kind the signature builder
cannot classify. -/
inductive Argument where
  | constant (value : Tensor)
  | parameter (dtype : DataType) (dims : List Int)
  | unknownKind
deriving DecidableEq

/-- Modelled from the spec: classification of one argument by the signature
builder; fails with an identity error if the argument is neither a valid
constant nor a valid type/shape descriptor. -/
def classifyArg : Argument → Except String SigArg
  | .constant t => .ok (.tensorArg t)
  | .parameter d dims => .ok (.typeShape (d, dims))
  | .unknownKind => .error "unhandled argument kind"

/-- Classification of the whole ordered argument list, preserving order. -/
def buildArgs : List Argument → Except String (List SigArg)
  | [] => .ok []
  | a :: rest =>
    match classifyArg a with
    | .error e => .error e
    | .ok x =>
      match buildArgs rest with
      | .error e => .error e
      | .ok xs => .ok (x :: xs)

/-- Modelled from the spec: `XlaCompilationCache::BuildSignature` (body not in
the provided sources): deterministically maps the unit name and ordered
argument list to a `Signature`, surfacing an identity error when an argument
cannot be classified. -/
def BuildSignature (function : String) (args : List Argument) :
    Except String Signature :=
  match buildArgs args with
  | .ok l => .ok ⟨function, l⟩
  | .error e => .error e

/-- `XlaCompilationCache::CompileState` (header line 84). -/
inductive CompileState where
  | kUncompiled
  | kCompiling
  | kCompiled
deriving DecidableEq

/-- `DeviceCompileMode`: the three compilation policies accepted by
`Compile`. -/
inductive DeviceCompileMode where
  | kLazy
  | kStrict
  | kAsync
deriving DecidableEq

/-- A `tensorflow::Status`: `none` is OK, `some msg` an error. -/
abbrev Status := Option String

/-- Opaque `XlaCompiler::CompilationResult` produced by the backend. -/
abbrev CompilationResult := Nat

/-- Opaque `xla::LocalExecutable` produced by the backend. -/
abbrev Executable := Nat

/-- Outcome of one backend invocation for a signature: on success a
compilation result together with an optional executable (the executable may
be absent when the computation has no non-constant outputs, per the header
comment on `Compile`), on failure an error message. -/
abbrev BackendResult := Except String (CompilationResult × Option Executable)

/-- `XlaCompilationCache::Entry` (header lines 214-232) with the field
default values written there: `compile_state = kUncompiled`,
`request_count = 0`, OK `compilation_status`, empty `compilation_result`
and null `executable`. -/
structure Entry where
  compile_state : CompileState := .kUncompiled
  request_count : Nat := 0
  compilation_status : Status := none
  compilation_result : Option CompilationResult := none
  executable : Option Executable := none
deriving DecidableEq

/-- A freshly constructed `Entry`, all fields at their declared defaults. -/
def Entry.init : Entry := {}

/-- Opaque `xla::HloModuleProto`: the intermediate representation generated
for a signature, modelled by its serialized content. -/
abbrev HloModuleProto := Nat

/-- Modelled from the spec: the content fingerprint of the intermediate
representation (the deterministic hash used by the persistent cache key). -/
def hloFingerprint (hlo : HloModuleProto) : Nat := hashCombine 0 hlo

/-- `XlaSerializedCacheKey`: the double key of a persisted record — the
signature's fingerprint plus the intermediate-representation fingerprint. -/
structure XlaSerializedCacheKey where
  signature_fingerprint : Nat
  cluster_fingerprint : Nat
deriving DecidableEq

/-- Modelled from the spec: `XlaCompilationCache::BuildSerializedCacheKey`
(body not in the provided sources): derives the persistent cache key from a
`Signature` plus the fingerprint of the generated intermediate
representation. -/
def BuildSerializedCacheKey (sig : Signature) (hlo : HloModuleProto) :
    XlaSerializedCacheKey :=
  ⟨Signature.sigHash sig, hloFingerprint hlo⟩

/-- `XlaSerializedCacheEntry`: a persisted record with its embedded key, the
intermediate representation it was built from, and the compiled artifact. -/
structure XlaSerializedCacheEntry where
  key : XlaSerializedCacheKey
  hlo_module : HloModuleProto
  compilation_result : CompilationResult
  executable : Option Executable
deriving DecidableEq

/-- Modelled from the spec: `XlaCompilationCache::VerifyLoadedCacheEntry`
(body not in the provided sources): the loaded record is accepted only when
its embedded key matches the freshly re-derived key and — unless strict
signature checks are disabled — its stored intermediate representation
matches the fresh one; a mismatch means the record is stale. -/
def VerifyLoadedCacheEntry (disableStrictChecks : Bool)
    (key : XlaSerializedCacheKey) (hlo : HloModuleProto)
    (se : XlaSerializedCacheEntry) : Bool :=
  se.key == key && (disableStrictChecks || se.hlo_module == hlo)

/-- The persistent store as a lookup from serialized keys to records. -/
abbrev PersistentStore := XlaSerializedCacheKey → Option XlaSerializedCacheEntry

/-- The store of a cache constructed without a persistence directory: both
persistence operations are no-ops. -/
def emptyStore : PersistentStore := fun _ => none

/-- Modelled from the spec: validated try-load — a record that is absent, or
present but failing `VerifyLoadedCacheEntry`, yields nothing. -/
def loadPersisted (d : Bool) (store : PersistentStore)
    (key : XlaSerializedCacheKey) (hlo : HloModuleProto) :
    Option XlaSerializedCacheEntry :=
  match store key with
  | none => none
  | some se => if VerifyLoadedCacheEntry d key hlo se then some se else none

/-- Modelled from the spec: completion of an in-flight compilation for an
entry in `kCompiling` state: backend success stores the result and optional
executable and moves to `kCompiled`; backend failure records the failure in
`compilation_status` and moves back to `kUncompiled`. -/
def finishCompile (e : Entry) (backend : BackendResult) : Entry :=
  match backend with
  | .ok (res, ex) =>
      { e with compile_state := .kCompiled, compilation_status := none,
               compilation_result := some res, executable := ex }
  | .error m =>
      { e with compile_state := .kUncompiled, compilation_status := some m }

/-- Modelled from the spec: `XlaCompilationCache::CompileStrict` (body not in
the provided sources): move the entry to `kCompiling`, consult the validated
persistent store first, and on a persistence miss run the backend. Returns
the updated entry, the number of backend invocations made, and the sequence
of compile states the entry passed through. -/
def compileStrictT (d : Bool) (store : PersistentStore) (sig : Signature)
    (hlo : HloModuleProto) (e : Entry) (backend : BackendResult) :
    Entry × Nat × List CompileState :=
  let e1 : Entry := { e with compile_state := .kCompiling }
  match loadPersisted d store (BuildSerializedCacheKey sig hlo) hlo with
  | some se =>
      let e2 : Entry :=
        { e1 with compile_state := .kCompiled, compilation_status := none,
                  compilation_result := some se.compilation_result,
                  executable := se.executable }
      (e2, 0, [e.compile_state, e1.compile_state, e2.compile_state])
  | none =>
      let e2 := finishCompile e1 backend
      (e2, 1, [e.compile_state, e1.compile_state, e2.compile_state])

/-- The entry table, keyed by `Signature` under `Signature::operator==`. -/
abbrev Cache := List (Signature × Entry)

/-- Lookup in the entry table under signature equality. -/
def cacheFind : Cache → Signature → Option Entry
  | [], _ => none
  | (s, e) :: rest, sig =>
    if Signature.sigEquals s sig then some e else cacheFind rest sig

/-- Store an entry under a signature, replacing the matching binding or
inserting a new one; existing bindings are never removed. -/
def cacheUpdate : Cache → Signature → Entry → Cache
  | [], sig, e => [(sig, e)]
  | (s, e0) :: rest, sig, e =>
    if Signature.sigEquals s sig then (s, e) :: rest
    else (s, e0) :: cacheUpdate rest sig e

/-- What one `Compile` call hands back to the caller: the returned `Status`,
the two output references, and how many backend invocations the call made. -/
structure CompileOut where
  status : Status
  out_compilation_result : Option CompilationResult
  out_executable : Option Executable
  backendCalls : Nat
deriving DecidableEq

/-- The caller-visible outputs read from an entry after its compile attempt
resolved: an error status yields null output references, otherwise the
stored result and executable are handed out. -/
def entryOut (e : Entry) (calls : Nat) : CompileOut :=
  match e.compilation_status with
  | some m => ⟨some m, none, none, calls⟩
  | none => ⟨none, e.compilation_result, e.executable, calls⟩

/-- Modelled from the spec: the strict dispatch arm of `CompileImpl` — a
failure already recorded against the signature is returned as-is without a
new backend attempt (failure caching); otherwise the entry is compiled
strictly. -/
def strictDispatch (d : Bool) (store : PersistentStore) (sig : Signature)
    (hlo : HloModuleProto) (c : Cache) (e : Entry) (backend : BackendResult) :
    Cache × CompileOut :=
  match e.compilation_status with
  | some m => (cacheUpdate c sig e, ⟨some m, none, none, 0⟩)
  | none =>
    match compileStrictT d store sig hlo e backend with
    | (e2, calls, _) => (cacheUpdate c sig e2, entryOut e2 calls)

/-- Modelled from the spec: a non-async caller that finds the entry
`kCompiling` blocks on the entry lock until the in-flight compilation
resolves, then returns the resolved state. -/
def resolveInFlight (c : Cache) (sig : Signature) (e : Entry)
    (backend : BackendResult) : Cache × CompileOut :=
  let e2 := finishCompile e backend
  (cacheUpdate c sig e2, entryOut e2 0)

/-- A cache hit on a `kCompiled` entry: return the stored outcome. -/
def hitCompiled (c : Cache) (sig : Signature) (e : Entry) :
    Cache × CompileOut :=
  (cacheUpdate c sig e, entryOut e 0)

/-- Modelled from the spec: `XlaCompilationCache::CompileImpl` (body not in
the provided sources): find-or-create the entry, increment `request_count`,
then dispatch on the entry state and the compile mode — lazy requests below
the profitability threshold and async requests return an immediate miss,
strict (and lazy at threshold) requests compile synchronously, a `kCompiled`
entry is a hit, and a `kCompiling` entry is a miss under async while a
non-async caller blocks until the in-flight compilation resolves. -/
def compileImpl (threshold : Nat) (d : Bool) (store : PersistentStore)
    (c : Cache) (sig : Signature) (hlo : HloModuleProto)
    (mode : DeviceCompileMode) (backend : BackendResult) :
    Cache × CompileOut :=
  let e0 := (cacheFind c sig).getD Entry.init
  let e : Entry := { e0 with request_count := e0.request_count + 1 }
  match e0.compile_state, mode with
  | .kUncompiled, .kLazy =>
    if e.request_count < threshold then
      (cacheUpdate c sig e, ⟨none, none, none, 0⟩)
    else
      strictDispatch d store sig hlo c e backend
  | .kUncompiled, .kStrict => strictDispatch d store sig hlo c e backend
  | .kUncompiled, .kAsync =>
      (cacheUpdate c sig { e with compile_state := .kCompiling },
       ⟨none, none, none, 0⟩)
  | .kCompiling, .kAsync => (cacheUpdate c sig e, ⟨none, none, none, 0⟩)
  | .kCompiling, .kLazy => resolveInFlight c sig e backend
  | .kCompiling, .kStrict => resolveInFlight c sig e backend
  | .kCompiled, .kLazy => hitCompiled c sig e
  | .kCompiled, .kStrict => hitCompiled c sig e
  | .kCompiled, .kAsync => hitCompiled c sig e

/-- Modelled from the spec:
`XlaCompilationCache::GetCompilationResultIfAlreadyCompiled` (body not in
the provided sources): a pure peek — lookup without creation; only a
`kCompiled` entry yields the stored result and executable. -/
def GetCompilationResultIfAlreadyCompiled (c : Cache) (sig : Signature) :
    Cache × Option CompilationResult × Option Executable :=
  match cacheFind c sig with
  | some e =>
    match e.compile_state with
    | .kCompiled => (c, e.compilation_result, e.executable)
    | _ => (c, none, none)
  | none => (c, none, none)

/-- The compile-state transitions the specification admits for an entry. -/
def allowedTransition (s t : CompileState) : Prop :=
  (s = .kUncompiled ∧ t = .kCompiling) ∨
    (s = .kCompiling ∧ t = .kCompiled) ∨
    (s = .kCompiling ∧ t = .kUncompiled)

/-- A concrete signature used to evaluate the model on closed inputs. -/
def sigF : Signature := ⟨"f", []⟩

/-- A persisted record whose embedded key does not match any freshly derived
key (both fingerprints zero). -/
def mismatchedEntry : XlaSerializedCacheEntry := ⟨⟨0, 0⟩, 0, 9, none⟩

/-- A store holding only the mismatched record, filed under the key that
`sigF` with intermediate representation `0` derives. -/
def mismatchStore : PersistentStore :=
  fun k => if k == BuildSerializedCacheKey sigF 0 then some mismatchedEntry else none

/-- A concrete already-compiled entry used to evaluate the peek query. -/
def compiledEntry : Entry := ⟨.kCompiled, 3, none, some 5, some 7⟩

theorem tensorEq_iff (a b : Tensor) : tensorEq a b = true ↔ a = b := by
  cases a; cases b
  simp [tensorEq, Tensor.mk.injEq, and_assoc]

theorem sigArgEq_iff (x y : SigArg) : sigArgEq x y = true ↔ x = y := by
  cases x <;> cases y <;>
    simp [sigArgEq, tensorEq_iff, Prod.ext_iff]

theorem sigArgEq_refl (x : SigArg) : sigArgEq x x = true :=
  (sigArgEq_iff x x).mpr rfl

theorem argsEq_iff (l1 l2 : List SigArg) :
    (l1.length = l2.length ∧
      (List.zip l1 l2).all (fun p => sigArgEq p.1 p.2) = true) ↔ l1 = l2 := by
  induction l1 generalizing l2 with
  | nil => cases l2 <;> simp
  | cons x xs ih =>
    cases l2 with
    | nil => simp
    | cons y ys =>
      simp only [List.length_cons, List.zip_cons_cons, List.all_cons,
        Bool.and_eq_true, List.cons.injEq, Nat.succ_inj]
      rw [← ih ys]
      constructor
      · rintro ⟨hl, hx, hys⟩
        exact ⟨(sigArgEq_iff x y).mp hx, hl, hys⟩
      · rintro ⟨hx, hl, hys⟩
        exact ⟨hl, (sigArgEq_iff x y).mpr hx, hys⟩

theorem sigEquals_iff (s1 s2 : Signature) :
    Signature.sigEquals s1 s2 = true ↔ s1 = s2 := by
  cases s1 with
  | mk n1 a1 =>
    cases s2 with
    | mk n2 a2 =>
      simp only [Signature.sigEquals, Bool.and_eq_true, beq_iff_eq,
        Signature.mk.injEq, and_assoc]
      constructor
      · rintro ⟨hn, hl, hz⟩
        exact ⟨hn, (argsEq_iff a1 a2).mp ⟨hl, hz⟩⟩
      · rintro ⟨hn, ha⟩
        rcases (argsEq_iff a1 a2).mpr ha with ⟨hl, hz⟩
        exact ⟨hn, hl, hz⟩

theorem sigEquals_refl (s : Signature) : Signature.sigEquals s s = true :=
  (sigEquals_iff s s).mpr rfl

theorem sigEquals_hash (s1 s2 : Signature)
    (h : Signature.sigEquals s1 s2 = true) :
    Signature.sigHash s1 = Signature.sigHash s2 := by
  rw [(sigEquals_iff s1 s2).mp h]

/-- C1: signatures built by `BuildSignature` from structurally equal inputs
are equal under `Signature::operator==` and hash identically under
`Signature::Hash`; moreover, for all signatures, equality under
`operator==` implies equal hash. -/
theorem claim_C1_build_signature_equality_and_hash :
    (∀ (f : String) (args : List Argument) (s1 s2 : Signature),
        BuildSignature f args = .ok s1 → BuildSignature f args = .ok s2 →
        Signature.sigEquals s1 s2 = true ∧
          Signature.sigHash s1 = Signature.sigHash s2) ∧
    (∀ s1 s2 : Signature, Signature.sigEquals s1 s2 = true →
        Signature.sigHash s1 = Signature.sigHash s2) := by
  constructor
  · intro f args s1 s2 h1 h2
    have hs : s1 = s2 := by
      rw [h1] at h2
      exact (Except.ok.injEq _ _).mp h2
    subst hs
    exact ⟨sigEquals_refl s1, rfl⟩
  · exact sigEquals_hash

/-- Witness for C1 at a concrete function name and argument list. -/
theorem claim_C1_build_signature_equality_and_hash_witness :
    Signature.sigEquals ⟨"f", [.typeShape (1, [2, 3])]⟩
        ⟨"f", [.typeShape (1, [2, 3])]⟩ = true ∧
      Signature.sigHash ⟨"f", [.typeShape (1, [2, 3])]⟩ =
        Signature.sigHash ⟨"f", [.typeShape (1, [2, 3])]⟩ :=
  claim_C1_build_signature_equality_and_hash.1 "f"
    [.parameter 1 [2, 3]] ⟨"f", [.typeShape (1, [2, 3])]⟩
    ⟨"f", [.typeShape (1, [2, 3])]⟩ rfl rfl

theorem buildArgs_constant_ne (pre post : List Argument) (t1 t2 : Tensor)
    (l1 l2 : List SigArg) (hne : tensorEq t1 t2 = false)
    (h1 : buildArgs (pre ++ .constant t1 :: post) = .ok l1)
    (h2 : buildArgs (pre ++ .constant t2 :: post) = .ok l2) :
    l1.length = l2.length ∧
      ((List.zip l1 l2).all fun p => sigArgEq p.1 p.2) = false := by
  induction pre generalizing l1 l2 with
  | nil =>
    simp only [List.nil_append, buildArgs, classifyArg] at h1 h2
    cases hb : buildArgs post with
    | error e => rw [hb] at h1; exact absurd h1 (by simp)
    | ok xs =>
      rw [hb] at h1 h2
      simp only [Except.ok.injEq] at h1 h2
      subst h1; subst h2
      simp [sigArgEq, hne]
  | cons a pre ih =>
    simp only [List.cons_append, buildArgs, List.append_eq] at h1 h2
    cases hca : classifyArg a with
    | error e => rw [hca] at h1; exact absurd h1 (by simp)
    | ok x =>
      rw [hca] at h1 h2
      cases hb1 : buildArgs (pre ++ .constant t1 :: post) with
      | error e => rw [hb1] at h1; exact absurd h1 (by simp)
      | ok ys1 =>
        cases hb2 : buildArgs (pre ++ .constant t2 :: post) with
        | error e => rw [hb2] at h2; exact absurd h2 (by simp)
        | ok ys2 =>
          rw [hb1] at h1; rw [hb2] at h2
          simp only [Except.ok.injEq] at h1 h2
          subst h1; subst h2
          rcases ih ys1 ys2 hb1 hb2 with ⟨hl, ha⟩
          refine ⟨by simp [hl], ?_⟩
          simp [sigArgEq_refl, ha]

/-- C2: two signatures built from the same function name and argument lists
that are identical except for the value of one compile-time-constant argument
are unequal under `Signature::operator==`, so they select distinct cache
entries. -/
theorem claim_C2_distinct_constant_values_unequal_signatures
    (f : String) (pre post : List Argument) (t1 t2 : Tensor)
    (s1 s2 : Signature) (hne : tensorEq t1 t2 = false)
    (h1 : BuildSignature f (pre ++ .constant t1 :: post) = .ok s1)
    (h2 : BuildSignature f (pre ++ .constant t2 :: post) = .ok s2) :
    Signature.sigEquals s1 s2 = false := by
  unfold BuildSignature at h1 h2
  cases hb1 : buildArgs (pre ++ .constant t1 :: post) with
  | error e => rw [hb1] at h1; exact absurd h1 (by simp)
  | ok l1 =>
    cases hb2 : buildArgs (pre ++ .constant t2 :: post) with
    | error e => rw [hb2] at h2; exact absurd h2 (by simp)
    | ok l2 =>
      rw [hb1] at h1; rw [hb2] at h2
      simp only [Except.ok.injEq] at h1 h2
      subst h1; subst h2
      rcases buildArgs_constant_ne pre post t1 t2 l1 l2 hne hb1 hb2 with ⟨_, ha⟩
      simp [Signature.sigEquals, ha]

/-- Witness for C2: one-element argument lists whose constants hold the
values 0 and 1. -/
theorem claim_C2_distinct_constant_values_unequal_signatures_witness :
    Signature.sigEquals ⟨"f", [.tensorArg ⟨0, [], [0]⟩]⟩
      ⟨"f", [.tensorArg ⟨0, [], [1]⟩]⟩ = false :=
  claim_C2_distinct_constant_values_unequal_signatures "f" [] []
    ⟨0, [], [0]⟩ ⟨0, [], [1]⟩ _ _ (by decide) rfl rfl

theorem cacheFind_cacheUpdate (c : Cache) (sig : Signature) (e : Entry) :
    cacheFind (cacheUpdate c sig e) sig = some e := by
  induction c with
  | nil => simp [cacheUpdate, cacheFind, sigEquals_refl]
  | cons p rest ih =>
    obtain ⟨s, e0⟩ := p
    by_cases h : Signature.sigEquals s sig = true
    · simp [cacheUpdate, cacheFind, h]
    · simp [cacheUpdate, cacheFind, h, ih]

/-- C3: the per-entry state machine admits exactly the transitions
`kUncompiled → kCompiling` (request accepted), `kCompiling → kCompiled`
(backend success) and `kCompiling → kUncompiled` (backend failure, recorded
in `compilation_status`); a `kCompiled` entry never leaves that state. -/
theorem claim_C3_compile_state_machine :
    (∀ (d : Bool) (store : PersistentStore) (sig : Signature)
        (hlo : HloModuleProto) (e : Entry) (b : BackendResult),
        e.compile_state = .kUncompiled →
        List.Chain' allowedTransition (compileStrictT d store sig hlo e b).2.2) ∧
    (∀ (d : Bool) (sig : Signature) (hlo : HloModuleProto) (e : Entry)
        (r : CompilationResult) (ex : Option Executable),
        e.compile_state = .kUncompiled →
        (compileStrictT d emptyStore sig hlo e (.ok (r, ex))).1.compile_state =
          .kCompiled) ∧
    (∀ (d : Bool) (sig : Signature) (hlo : HloModuleProto) (e : Entry)
        (m : String),
        e.compile_state = .kUncompiled →
        (compileStrictT d emptyStore sig hlo e (.error m)).1.compile_state =
            .kUncompiled ∧
          (compileStrictT d emptyStore sig hlo e
              (.error m)).1.compilation_status = some m) ∧
    (∀ (th : Nat) (d : Bool) (store : PersistentStore) (c : Cache)
        (sig : Signature) (hlo : HloModuleProto) (mode : DeviceCompileMode)
        (b : BackendResult) (e0 : Entry),
        cacheFind c sig = some e0 → e0.compile_state = .kCompiled →
        cacheFind (compileImpl th d store c sig hlo mode b).1 sig =
          some { e0 with request_count := e0.request_count + 1 }) := by
  refine ⟨?_, ?_, ?_, ?_⟩
  · intro d store sig hlo e b hU
    unfold compileStrictT
    cases hl : loadPersisted d store (BuildSerializedCacheKey sig hlo) hlo with
    | some se => simp [hl, hU, allowedTransition]
    | none =>
      cases b with
      | ok p =>
        obtain ⟨r, ex⟩ := p
        simp [hl, hU, finishCompile, allowedTransition]
      | error m => simp [hl, hU, finishCompile, allowedTransition]
  · intro d sig hlo e r ex hU
    simp [compileStrictT, loadPersisted, emptyStore, finishCompile]
  · intro d sig hlo e m hU
    simp [compileStrictT, loadPersisted, emptyStore, finishCompile]
  · intro th d store c sig hlo mode b e0 hfind hCd
    cases mode <;>
      simp [compileImpl, hfind, hCd, hitCompiled, cacheFind_cacheUpdate]

/-- Witness for C3: a fresh entry compiled strictly with a succeeding backend
ends `kCompiled`. -/
theorem claim_C3_compile_state_machine_witness :
    (compileStrictT false emptyStore sigF 0 Entry.init
        (.ok (5, none))).1.compile_state = .kCompiled :=
  claim_C3_compile_state_machine.2.1 false sigF 0 Entry.init 5 none rfl

/-- C4: a backend failure is recorded in the entry's `compilation_status`
and cached: the failing Strict call returns the failure after one backend
invocation, and an immediately repeated Strict call for the same signature
returns the same recorded failure with zero further backend invocations. -/
theorem claim_C4_failure_caching (th : Nat) (d : Bool) (c : Cache)
    (sig : Signature) (hlo : HloModuleProto) (m : String) (b2 : BackendResult)
    (h1 : ((cacheFind c sig).getD Entry.init).compile_state = .kUncompiled)
    (h2 : ((cacheFind c sig).getD Entry.init).compilation_status = none) :
    (compileImpl th d emptyStore c sig hlo .kStrict (.error m)).2 =
        ⟨some m, none, none, 1⟩ ∧
      (compileImpl th d emptyStore
          (compileImpl th d emptyStore c sig hlo .kStrict (.error m)).1 sig hlo
          .kStrict b2).2 = ⟨some m, none, none, 0⟩ := by
  have hcall1 : compileImpl th d emptyStore c sig hlo .kStrict (.error m) =
      (cacheUpdate c sig
        { (cacheFind c sig).getD Entry.init with
          request_count := ((cacheFind c sig).getD Entry.init).request_count + 1,
          compile_state := .kUncompiled, compilation_status := some m },
       ⟨some m, none, none, 1⟩) := by
    simp [compileImpl, strictDispatch, compileStrictT, loadPersisted,
      emptyStore, finishCompile, entryOut, h1, h2]
  refine ⟨by rw [hcall1], ?_⟩
  rw [hcall1]
  simp [compileImpl, cacheFind_cacheUpdate, strictDispatch]

/-- Witness for C4: both calls observed on the empty cache. -/
theorem claim_C4_failure_caching_witness :
    (compileImpl 0 false emptyStore [] sigF 0 .kStrict (.error "boom")).2 =
        ⟨some "boom", none, none, 1⟩ ∧
      (compileImpl 0 false emptyStore
          (compileImpl 0 false emptyStore [] sigF 0 .kStrict
            (.error "boom")).1 sigF 0 .kStrict (.ok (5, none))).2 =
        ⟨some "boom", none, none, 0⟩ :=
  claim_C4_failure_caching 0 false [] sigF 0 "boom" (.ok (5, none)) rfl rfl

/-- C5: `GetCompilationResultIfAlreadyCompiled` leaves the entry table (and
hence every entry) unchanged; it returns the stored result and executable
when the signature's entry exists and is `kCompiled`, and a pair of nulls
when the entry is absent or not yet `kCompiled`. -/
theorem claim_C5_peek_never_compiles (c : Cache) (sig : Signature) :
    (GetCompilationResultIfAlreadyCompiled c sig).1 = c ∧
    (∀ e, cacheFind c sig = some e → e.compile_state = .kCompiled →
      (GetCompilationResultIfAlreadyCompiled c sig).2 =
        (e.compilation_result, e.executable)) ∧
    (∀ e, cacheFind c sig = some e → e.compile_state ≠ .kCompiled →
      (GetCompilationResultIfAlreadyCompiled c sig).2 = (none, none)) ∧
    (cacheFind c sig = none →
      (GetCompilationResultIfAlreadyCompiled c sig).2 = (none, none)) := by
  refine ⟨?_, ?_, ?_, ?_⟩
  · cases hf : cacheFind c sig with
    | none => simp [GetCompilationResultIfAlreadyCompiled, hf]
    | some e =>
      cases he : e.compile_state <;>
        simp [GetCompilationResultIfAlreadyCompiled, hf, he]
  · intro e hf he
    simp [GetCompilationResultIfAlreadyCompiled, hf, he]
  · intro e hf he
    cases hs : e.compile_state with
    | kCompiled => exact absurd hs he
    | kUncompiled => simp [GetCompilationResultIfAlreadyCompiled, hf, hs]
    | kCompiling => simp [GetCompilationResultIfAlreadyCompiled, hf, hs]
  · intro hf
    simp [GetCompilationResultIfAlreadyCompiled, hf]

/-- Witness for C5: the peek on a one-entry compiled table. -/
theorem claim_C5_peek_never_compiles_witness :
    (GetCompilationResultIfAlreadyCompiled [(sigF, compiledEntry)] sigF).1 =
        [(sigF, compiledEntry)] ∧
      (GetCompilationResultIfAlreadyCompiled [(sigF, compiledEntry)] sigF).2 =
        (some 5, some 7) :=
  ⟨(claim_C5_peek_never_compiles [(sigF, compiledEntry)] sigF).1,
   (claim_C5_peek_never_compiles [(sigF, compiledEntry)] sigF).2.1
     compiledEntry rfl rfl⟩

theorem entryOut_null_on_none (e : Entry) (k : Nat)
    (h : e.compilation_result = none → e.executable = none) :
    (entryOut e k).out_compilation_result = none →
    (entryOut e k).out_executable = none := by
  cases hs : e.compilation_status with
  | some m => simp [entryOut, hs]
  | none => simpa [entryOut, hs] using h

theorem strictDispatch_null_on_none (d : Bool) (store : PersistentStore)
    (sig : Signature) (hlo : HloModuleProto) (c : Cache) (e : Entry)
    (b : BackendResult) :
    (strictDispatch d store sig hlo c e b).2.out_compilation_result = none →
    (strictDispatch d store sig hlo c e b).2.out_executable = none := by
  unfold strictDispatch
  cases hs : e.compilation_status with
  | some m => simp
  | none =>
    unfold compileStrictT
    cases hl : loadPersisted d store (BuildSerializedCacheKey sig hlo) hlo with
    | some se => simp [entryOut]
    | none =>
      cases b with
      | ok p =>
        obtain ⟨r, ex⟩ := p
        simp [finishCompile, entryOut]
      | error m => simp [finishCompile, entryOut]

theorem resolveInFlight_null_on_none (c : Cache) (sig : Signature) (e : Entry)
    (b : BackendResult) :
    (resolveInFlight c sig e b).2.out_compilation_result = none →
    (resolveInFlight c sig e b).2.out_executable = none := by
  unfold resolveInFlight
  cases b with
  | ok p =>
    obtain ⟨r, ex⟩ := p
    simp [finishCompile, entryOut]
  | error m => simp [finishCompile, entryOut]

/-- C6 counterexample: with a backend whose computation has no non-constant
outputs (it builds no executable — explicitly allowed by the header comment
on `Compile`), a strict call returns a populated `out_compilation_result`
together with a null `out_executable`: a pair in which exactly one output is
null. -/
theorem claim_C6_counterexample :
    (compileImpl 0 false emptyStore [] sigF 0 .kStrict
        (.ok (5, none))).2.out_compilation_result = some 5 ∧
      (compileImpl 0 false emptyStore [] sigF 0 .kStrict
        (.ok (5, none))).2.out_executable = none := by
  constructor <;> rfl

/-- C6 (amended): `Compile` returns both outputs null on a miss; otherwise
the compilation result is populated while the executable may additionally be
null when the backend built none; it never returns a null compilation result
together with a populated executable. -/
theorem claim_C6_compile_output_pair (th : Nat) (d : Bool)
    (store : PersistentStore) (c : Cache) (sig : Signature)
    (hlo : HloModuleProto) (mode : DeviceCompileMode) (b : BackendResult)
    (hwf : ∀ e, cacheFind c sig = some e →
      e.executable.isSome = true → e.compilation_result.isSome = true) :
    (compileImpl th d store c sig hlo mode b).2.out_compilation_result =
        none →
    (compileImpl th d store c sig hlo mode b).2.out_executable = none := by
  cases hst : ((cacheFind c sig).getD Entry.init).compile_state with
  | kUncompiled =>
    cases mode with
    | kLazy =>
      by_cases hth : ((cacheFind c sig).getD Entry.init).request_count + 1 < th
      · simp [compileImpl, hst, hth]
      · simp only [compileImpl, hst, hth, if_neg hth]
        exact strictDispatch_null_on_none d store sig hlo c _ b
    | kStrict =>
      simp only [compileImpl, hst]
      exact strictDispatch_null_on_none d store sig hlo c _ b
    | kAsync => simp [compileImpl, hst]
  | kCompiling =>
    cases mode with
    | kAsync => simp [compileImpl, hst]
    | kLazy =>
      simp only [compileImpl, hst]
      exact resolveInFlight_null_on_none c sig _ b
    | kStrict =>
      simp only [compileImpl, hst]
      exact resolveInFlight_null_on_none c sig _ b
  | kCompiled =>
    cases hfind : cacheFind c sig with
    | none =>
      rw [hfind] at hst
      simp [Entry.init] at hst
    | some e1 =>
      rw [hfind] at hst
      have hni : e1.compilation_result = none → e1.executable = none := by
        intro hr
        cases hex : e1.executable with
        | none => rfl
        | some x =>
          have hs := hwf e1 hfind (by simp [hex])
          rw [hr] at hs
          simp at hs
      obtain ⟨st, rc, cs, cr, ex⟩ := e1
      subst hst
      cases mode <;>
        · simp only [compileImpl, hfind, Option.getD_some]
          exact entryOut_null_on_none _ 0 hni

/-- Witness for the amended C6: a lazy below-threshold miss returns both
outputs null. -/
theorem claim_C6_compile_output_pair_witness :
    (compileImpl 5 false emptyStore [] sigF 0 .kLazy
        (.ok (1, some 1))).2.out_executable = none :=
  claim_C6_compile_output_pair 5 false emptyStore [] sigF 0 .kLazy
    (.ok (1, some 1)) (fun e he => absurd he (by simp [cacheFind])) rfl

/-- C7: a lazy request on a `kUncompiled` entry whose incremented
`request_count` is still below the profitability threshold returns a miss
with zero backend invocations and leaves the entry's state unchanged (only
the counter moves); once the threshold is met, the lazy call behaves exactly
as a strict call. -/
theorem claim_C7_lazy_threshold (th : Nat) (d : Bool) (store : PersistentStore)
    (c : Cache) (sig : Signature) (hlo : HloModuleProto) (b : BackendResult)
    (h1 : ((cacheFind c sig).getD Entry.init).compile_state = .kUncompiled) :
    (((cacheFind c sig).getD Entry.init).request_count + 1 < th →
      (compileImpl th d store c sig hlo .kLazy b).2 = ⟨none, none, none, 0⟩ ∧
      cacheFind (compileImpl th d store c sig hlo .kLazy b).1 sig =
        some { (cacheFind c sig).getD Entry.init with
               request_count :=
                 ((cacheFind c sig).getD Entry.init).request_count + 1 }) ∧
    (th ≤ ((cacheFind c sig).getD Entry.init).request_count + 1 →
      compileImpl th d store c sig hlo .kLazy b =
        compileImpl th d store c sig hlo .kStrict b) := by
  constructor
  · intro hth
    constructor
    · simp [compileImpl, h1, hth]
    · simp [compileImpl, h1, hth, cacheFind_cacheUpdate]
  · intro hth
    have hth2 :
        ¬((cacheFind c sig).getD Entry.init).request_count + 1 < th :=
      not_lt.mpr hth
    simp [compileImpl, h1, hth2]

/-- Witness for C7: with threshold 2, the first lazy request on an empty
cache is a miss that performs no backend call. -/
theorem claim_C7_lazy_threshold_witness :
    (compileImpl 2 false emptyStore [] sigF 0 .kLazy
        (.ok (1, some 1))).2 = ⟨none, none, none, 0⟩ ∧
      cacheFind (compileImpl 2 false emptyStore [] sigF 0 .kLazy
          (.ok (1, some 1))).1 sigF =
        some { Entry.init with request_count := 1 } :=
  (claim_C7_lazy_threshold 2 false emptyStore [] sigF 0
    (.ok (1, some 1)) rfl).1 (by decide)

/-- C8: a persisted record whose embedded key does not match the key freshly
re-derived from the signature and the intermediate-representation
fingerprint is treated exactly as an absent entry — the strict compile
behaves identically to one over an empty store, so backend compilation
proceeds and the mismatch is never surfaced as an error to the caller. -/
theorem claim_C8_stale_record_rejected (d : Bool) (store : PersistentStore)
    (se : XlaSerializedCacheEntry) (sig : Signature) (hlo : HloModuleProto)
    (e : Entry) (b : BackendResult)
    (hstore : store (BuildSerializedCacheKey sig hlo) = some se)
    (hver : VerifyLoadedCacheEntry d (BuildSerializedCacheKey sig hlo) hlo se =
      false) :
    compileStrictT d store sig hlo e b =
        compileStrictT d emptyStore sig hlo e b ∧
      (∀ r ex, b = .ok (r, ex) →
        (compileStrictT d store sig hlo e b).1.compilation_status = none) := by
  have hload :
      loadPersisted d store (BuildSerializedCacheKey sig hlo) hlo = none := by
    simp [loadPersisted, hstore, hver]
  have hload2 :
      loadPersisted d emptyStore (BuildSerializedCacheKey sig hlo) hlo =
        none := rfl
  constructor
  · simp [compileStrictT, hload, hload2]
  · rintro r ex rfl
    simp [compileStrictT, hload, finishCompile]

/-- Witness for C8: the concrete mismatched record is ignored and the backend
result lands. -/
theorem claim_C8_stale_record_rejected_witness :
    compileStrictT false mismatchStore sigF 0 Entry.init (.ok (3, some 4)) =
        compileStrictT false emptyStore sigF 0 Entry.init (.ok (3, some 4)) ∧
      (compileStrictT false mismatchStore sigF 0 Entry.init
          (.ok (3, some 4))).1.compilation_status = none :=
  ⟨(claim_C8_stale_record_rejected false mismatchStore mismatchedEntry sigF 0
      Entry.init (.ok (3, some 4)) (by simp [mismatchStore])
      (by decide)).1,
   (claim_C8_stale_record_rejected false mismatchStore mismatchedEntry sigF 0
      Entry.init (.ok (3, some 4)) (by simp [mismatchStore])
      (by decide)).2 3 (some 4) rfl⟩

/-- C10: a freshly constructed `Entry` has `compile_state = kUncompiled`,
`request_count = 0` and no executable, so the first compile request for a
new signature observes the `kUncompiled` state. -/
theorem claim_C10_fresh_entry_defaults :
    (Entry.init.compile_state = .kUncompiled ∧ Entry.init.request_count = 0 ∧
      Entry.init.executable = none) ∧
    (∀ (c : Cache) (sig : Signature), cacheFind c sig = none →
      ((cacheFind c sig).getD Entry.init).compile_state = .kUncompiled ∧
      ((cacheFind c sig).getD Entry.init).request_count = 0 ∧
      ((cacheFind c sig).getD Entry.init).executable = none) := by
  refine ⟨⟨rfl, rfl, rfl⟩, ?_⟩
  intro c sig hf
  rw [hf]
  exact ⟨rfl, rfl, rfl⟩

/-- Witness for C10: the empty table. -/
theorem claim_C10_fresh_entry_defaults_witness :
    ((cacheFind [] sigF).getD Entry.init).compile_state = .kUncompiled ∧
    ((cacheFind [] sigF).getD Entry.init).request_count = 0 ∧
    ((cacheFind [] sigF).getD Entry.init).executable = none :=
  claim_C10_fresh_entry_defaults.2 [] sigF rfl

end XlaCache
